import Mathlib

/-! go-infrabin: the proxy, the AWS metadata endpoint and the intermittent-failure handler

A shallow embedding of `pkg/infrabin/infrabin.go`.

* gRPC statuses are a code and a message.
* `viper` configuration is a record read by the handlers.
* The Go standard library and protobuf calls made by the handlers
  (`regexp`, `net/url`, `net/http`, `protojson`) are the fields of `Lib`;
  a handler returns its result together with the requests it handed to the
  HTTP client and the requests the client sent, redirects included.
* `int32` values are integers, with `wrapInt32` applied wherever Go's
  arithmetic could wrap around.
-/

namespace Infrabin

/-! ## gRPC statuses -/

/-- The `codes.*` values used by the handlers. -/
inductive Code where
  | NotFound
  | Unavailable
  | Unimplemented
  | Internal
  | InvalidArgument
  deriving DecidableEq, Repr

/-- The error built by `status.Errorf(code, format, args...)`. -/
structure Status where
  code : Code
  message : String
  deriving DecidableEq, Repr

/-! ## Configuration (`viper`) -/

/-- The configuration keys read by `Proxy`, `AWSMetadata` and `Intermittent`. -/
structure Config where
  /-- Key `proxyEndpoint`, read with `viper.GetBool`. -/
  proxyEndpoint : Bool
  /-- Key `proxyAllowRegexp`, read with `viper.GetString`. -/
  proxyAllowRegexp : String
  /-- Key `awsMetadataEndpoint`, read with `viper.GetString`. -/
  awsMetadataEndpoint : String
  /-- Key `intermittentErrors`, read with `viper.GetInt32`. -/
  intermittentErrors : Int
  deriving DecidableEq, Repr

/-! ## 32-bit integers -/

/-- Two's-complement reduction of an integer to the `int32` range. -/
def wrapInt32 (x : Int) : Int := (x + 2 ^ 31) % 2 ^ 32 - 2 ^ 31

/-- The values an `int32` can hold. -/
def isInt32 (x : Int) : Prop := -(2 ^ 31) ≤ x ∧ x < 2 ^ 31

instance (x : Int) : Decidable (isInt32 x) := by
  unfold isInt32
  exact inferInstance

/-! ## Intermittent -/

/-- The mutable part of `InfrabinService` (the `STSClient` field is only
read by the AWS handlers and never written). -/
structure InfrabinService where
  IntermittentErrorsCounter : Int
  deriving DecidableEq, Repr

/-- Message `IntermittentResponse`. -/
structure IntermittentResponse where
  IntermittentErrors : Int
  deriving DecidableEq, Repr

/-- Message `Response`, restricted to the field `Intermittent` sets; the
other fields keep their zero value. -/
structure Response where
  Intermittent : Option IntermittentResponse
  deriving DecidableEq, Repr

/-- `fmt.Sprintf("%d errors left", n)`. -/
def errorsLeft (n : Int) : String := toString n ++ " errors left"

/-- `InfrabinService.Intermittent`: the result and the service afterwards. -/
def Intermittent (cfg : Config) (s : InfrabinService) :
    Except Status Response × InfrabinService :=
  let maxErrs := cfg.intermittentErrors
  if s.IntermittentErrorsCounter < maxErrs then
    let s1 : InfrabinService :=
      { s with IntermittentErrorsCounter := wrapInt32 (s.IntermittentErrorsCounter + 1) }
    (.error ⟨Code.Unavailable,
        errorsLeft (wrapInt32 (wrapInt32 (maxErrs - s1.IntermittentErrorsCounter) + 1))⟩, s1)
  else
    (.ok { Intermittent := some { IntermittentErrors := maxErrs } },
      { s with IntermittentErrorsCounter := 0 })

/-- A service whose counter has its initial value. -/
def fresh : InfrabinService := { IntermittentErrorsCounter := 0 }

/-- The service after `k` sequential calls of `Intermittent` under a fixed
configuration. -/
def afterCalls (cfg : Config) : Nat → InfrabinService → InfrabinService
  | 0, s => s
  | k + 1, s => (Intermittent cfg (afterCalls cfg k s)).2

/-- The `k`-th sequential call (`k ≥ 1`) on a fresh service: its result and the
service it leaves. -/
def kthCall (cfg : Config) (k : Nat) : Except Status Response × InfrabinService :=
  Intermittent cfg (afterCalls cfg (k - 1) fresh)

/-- The configuration `cfg` with the threshold replaced by `t`. -/
def withThreshold (cfg : Config) (t : Int) : Config :=
  { cfg with intermittentErrors := t }

/-- The service after sequential calls whose thresholds are read from `ts`,
one per call, first call first. -/
def afterThresholds (cfg : Config) : List Int → InfrabinService → InfrabinService
  | [], s => s
  | t :: ts, s => afterThresholds cfg ts (Intermittent (withThreshold cfg t) s).2

/-- The invariant `0 ≤ counter ≤ threshold`. -/
def counterInv (t : Int) (s : InfrabinService) : Prop :=
  0 ≤ s.IntermittentErrorsCounter ∧ s.IntermittentErrorsCounter ≤ t

/-! ## Library types -/

/-- A Go byte slice. -/
abbrev Bytes := List UInt8

/-- The record `url.URL`; `User` holds the username and the optional password. -/
structure URL where
  Scheme : String
  Opaque : String
  User : Option (String × Option String)
  Host : String
  Path : String
  RawPath : String
  ForceQuery : Bool
  RawQuery : String
  Fragment : String
  RawFragment : String
  deriving DecidableEq, Repr

/-- The part of `http.Request` the proxy fills in: method, target URL, header
entries and body. -/
structure Request where
  Method : String
  URL : String
  Header : List (String × String)
  Body : Bytes
  deriving DecidableEq, Repr

/-- What the proxy observes of an `http.Response`: the outcome of
`ioutil.ReadAll(resp.Body)` and the error, if any, of `resp.Body.Close()`. -/
structure HTTPResponse where
  Body : Except String Bytes
  Close : Option String

/-- What the client gets back for one request it sent: a response it returns to
its caller, or a redirect it follows, with the request it derives from the
`Location` header. -/
inductive Answer where
  | final (resp : HTTPResponse)
  | redirect (next : Request)

/-- The library calls made by `Proxy` and `AWSMetadata`. Errors are carried as
the text `%v` prints for them. -/
structure Lib where
  /-- The type `regexp.Regexp`. -/
  Regexp : Type
  /-- The function `regexp.Compile`. -/
  Compile : String → Except String Regexp
  /-- Whether the expression matches the characters `i` up to `j` of the
  string, read where they stand in the string. -/
  matchSpan : Regexp → String → Nat → Nat → Bool
  /-- The type `structpb.Struct`. -/
  Struct : Type
  /-- The function `protojson.Marshal` on a non-nil `structpb.Struct`. -/
  marshalStruct : Struct → Except String Bytes
  /-- The method `(*structpb.Struct).UnmarshalJSON`, on a zero receiver. -/
  UnmarshalJSON : Bytes → Except String Struct
  /-- The function `url.Parse`. -/
  Parse : String → Except String URL
  /-- The method `(*url.URL).String`. -/
  URLString : URL → String
  /-- The error, if any, `http.NewRequestWithContext` reports for a method
  and a target URL. -/
  requestError : String → String → Option String
  /-- The function `textproto.CanonicalMIMEHeaderKey`. -/
  CanonicalMIMEHeaderKey : String → String
  /-- One exchange of the client with the network (`(*http.Client).send`, under
  the five second timeout): a transport error or the answer. -/
  send : Request → Except String Answer

/-- The method `(*Regexp).MatchString`: whether the string contains any match
of the expression. -/
def Lib.MatchString (L : Lib) (r : L.Regexp) (s : String) : Bool :=
  (List.range (s.length + 1)).any fun i =>
    (List.range (s.length + 1)).any fun j => decide (i ≤ j) && L.matchSpan r s i j

/-- The method `(*structpb.Struct).MarshalJSON`; a nil receiver is rendered
as the empty JSON object. -/
def Lib.MarshalJSON (L : Lib) : Option L.Struct → Except String Bytes
  | none => .ok [123, 125]
  | some x => L.marshalStruct x

/-- The function `http.NewRequestWithContext`: an empty method means GET. -/
def Lib.NewRequestWithContext (L : Lib) (method url : String) (body : Bytes) :
    Except String Request :=
  match L.requestError method url with
  | some err => .error err
  | none =>
    .ok { Method := if method = "" then "GET" else method, URL := url, Header := [], Body := body }

/-- The function `urlErrorOp` of `net/http`: the method with its first letter
kept and the others in lower case, `Get` for the empty method. -/
def urlErrorOp (method : String) : String :=
  match method.toList with
  | [] => "Get"
  | c :: cs => String.mk (c :: cs.map Char.toLower)

/-- The text of the `url.Error` in which `Do` wraps its errors. -/
def urlError (first last : Request) (err : String) : String :=
  urlErrorOp first.Method ++ " " ++ last.URL.quote ++ ": " ++ err

/-- The loop of `(*http.Client).do` under the default redirect policy, for a
client whose `CheckRedirect` is nil: send the request, follow a redirect
answer with the derived request, and stop with an error instead of sending an
eleventh request. Returns the outcome and the requests sent, in order. -/
def Lib.follow (L : Lib) (first : Request) :
    Nat → Request → Request → Except String HTTPResponse × List Request
  | 0, last, _ => (.error (urlError first last "stopped after 10 redirects"), [])
  | fuel + 1, _, req =>
    match L.send req with
    | .error err => (.error (urlError first req err), [req])
    | .ok (.final resp) => (.ok resp, [req])
    | .ok (.redirect next) =>
      ((L.follow first fuel req next).1, req :: (L.follow first fuel req next).2)

/-- The method `(*http.Client).Do` of the client built by `Proxy`
(`http.Client{Timeout: 5 * time.Second}`, so redirects are followed): the
response or error, and the requests sent on the network. -/
def Lib.Do (L : Lib) (req : Request) : Except String HTTPResponse × List Request :=
  L.follow req 10 req req

/-- The method `http.Header.Set`: the entry of the canonical key is replaced. -/
def Lib.headerSet (L : Lib) (req : Request) (key value : String) : Request :=
  let k := L.CanonicalMIMEHeaderKey key
  { req with Header := (req.Header.filter fun kv => kv.1 ≠ k) ++ [(k, value)] }

/-! ## Proxy and AWSMetadata -/

/-- Message `ProxyRequest`; `Headers` lists the entries of the map in the
order the loop visits them, `Body` is a pointer that may be nil. -/
structure ProxyRequest (σ : Type) where
  Method : String
  Url : String
  Headers : List (String × String)
  Body : Option σ

/-- Message `AWSMetadataRequest`. -/
structure AWSMetadataRequest where
  Path : String
  deriving DecidableEq, Repr

/-- What a handler returns, the requests it handed to `client.Do` (`calls`), and
the requests the client sent on the network for them, in order (`sent`). -/
structure Outcome (σ : Type) where
  result : Except Status σ
  calls : List Request
  sent : List Request

/-- A handler failing without touching the network. -/
def Outcome.fail {σ : Type} (code : Code) (message : String) : Outcome σ :=
  { result := .error ⟨code, message⟩, calls := [], sent := [] }

/-- Lines 112 to 142 of `Proxy`: build the upstream request, send it, read and
decode the response (the comment on line 128 says request body; what is read
and closed is the body of the response). -/
def forward (L : Lib) (request : ProxyRequest L.Struct) (requestBody : Bytes) :
    Outcome L.Struct :=
  match L.NewRequestWithContext request.Method request.Url requestBody with
  | .error err => Outcome.fail Code.Internal ("Unable to build request: " ++ err)
  | .ok req0 =>
    let req := request.Headers.foldl (fun q kv => L.headerSet q kv.1 kv.2) req0
    let sent := (L.Do req).2
    match (L.Do req).1 with
    | .error err =>
      { result := .error ⟨Code.Internal, "Unable to reach " ++ request.Url ++ ": " ++ err⟩,
        calls := [req], sent := sent }
    | .ok resp =>
      match resp.Body with
      | .error err =>
        { result := .error ⟨Code.Internal, "Error reading upstream response body: " ++ err⟩,
          calls := [req], sent := sent }
      | .ok body =>
        match resp.Close with
        | some err =>
          { result := .error ⟨Code.Internal, "Error closing upstream response: " ++ err⟩,
            calls := [req], sent := sent }
        | none =>
          match L.UnmarshalJSON body with
          | .error err =>
            { result := .error ⟨Code.Internal,
                "Error creating Struct from upstream response json: " ++ err⟩,
              calls := [req], sent := sent }
          | .ok response => { result := .ok response, calls := [req], sent := sent }

/-- The message of the error returned for a URL the pattern does not match. -/
def blockedMessage (url exp : String) : String :=
  "Unable to build request as the target URL " ++ url ++ " is blocked by the regexp " ++ exp

/-- `InfrabinService.Proxy`. -/
def Proxy (L : Lib) (cfg : Config) (request : ProxyRequest L.Struct) : Outcome L.Struct :=
  if !cfg.proxyEndpoint then
    Outcome.fail Code.Unimplemented
      "Proxy endpoint disabled. Enabled with --enable-proxy-endpoint"
  else
    let exp := cfg.proxyAllowRegexp
    match L.Compile exp with
    | .error err =>
      Outcome.fail Code.Internal ("Unable to compile " ++ exp ++ " regexp: " ++ err)
    | .ok r =>
      match L.MarshalJSON request.Body with
      | .error err =>
        Outcome.fail Code.Internal ("Unable to marshal downstream request body: " ++ err)
      | .ok requestBody =>
        if !L.MatchString r request.Url then
          Outcome.fail Code.InvalidArgument (blockedMessage request.Url exp)
        else
          forward L request requestBody

/-- `InfrabinService.AWSMetadata`. -/
def AWSMetadata (L : Lib) (cfg : Config) (request : AWSMetadataRequest) : Outcome L.Struct :=
  if request.Path = "" then
    Outcome.fail Code.InvalidArgument "path must not be empty"
  else
    match L.Parse cfg.awsMetadataEndpoint with
    | .error err =>
      Outcome.fail Code.Internal ("s.Config.AWSMetadataEndpoint invalid: " ++ err)
    | .ok u =>
      let u := { u with Path := request.Path }
      Proxy L cfg { Method := "GET", Url := L.URLString u, Headers := [], Body := none }

/-! ## A reference library

An instance of `Lib` on which the handlers can be evaluated: a regular
expression engine for the operators `.`, `^`, `$`, `*`, `+`, `?`, `|` and
escaped punctuation, absolute URLs without user information and percent
escapes, flat `Struct` values, and a canned upstream. Inputs outside these
fragments are reported as errors by this instance. -/

namespace Ref

/-! ### Regular expressions -/

/-- Abstract syntax of the expressions of the fragment. -/
inductive Re where
  | empty
  | lit (c : Char)
  | anyChar
  | bol
  | eol
  | cat (a b : Re)
  | alt (a b : Re)
  | star (a : Re)
  deriving DecidableEq, Repr

/-- End positions of zero or more repetitions starting at `i`, when one
repetition starting at `k` ends at the positions `f k`; repetitions that
consume nothing are not repeated. -/
def starEnds (f : Nat → List Nat) : Nat → Nat → List Nat
  | 0, i => [i]
  | fuel + 1, i => i :: ((f i).filter fun j => i < j).flatMap (starEnds f fuel)

/-- End positions of the matches of an expression that start at position `i`
of the input `cs`. -/
def Re.ends (cs : List Char) : Re → Nat → List Nat
  | .empty, i => [i]
  | .lit c, i => if cs.get? i = some c then [i + 1] else []
  | .anyChar, i =>
    match cs.get? i with
    | some c => if c = Char.ofNat 10 then [] else [i + 1]
    | none => []
  | .bol, i => if i = 0 then [i] else []
  | .eol, i => if i = cs.length then [i] else []
  | .cat a b, i => (Re.ends cs a i).flatMap fun j => Re.ends cs b j
  | .alt a b, i => Re.ends cs a i ++ Re.ends cs b i
  | .star a, i => starEnds (fun k => Re.ends cs a k) cs.length i

/-- Parser state: the alternatives closed by a bar, the concatenation read so
far in the current alternative, and the last atom, to which a repetition
operator applies. -/
structure ParseState where
  alts : Option Re
  seq : Re
  atom : Option Re

/-- The concatenation of the current alternative, pending atom included. -/
def ParseState.current (st : ParseState) : Re :=
  match st.atom with
  | none => st.seq
  | some a => Re.cat st.seq a

/-- The expression read so far. -/
def ParseState.close (st : ParseState) : Re :=
  match st.alts with
  | none => st.current
  | some l => Re.alt l st.current

/-- A new atom has been read. -/
def ParseState.push (st : ParseState) (a : Re) : ParseState :=
  { st with seq := st.current, atom := some a }

/-- Characters with a meaning in the full syntax that the fragment leaves out. -/
def outsideFragment (c : Char) : Bool :=
  c = '(' || c = ')' || c = '[' || c = ']' || c = Char.ofNat 123 || c = Char.ofNat 125

/-- Parse the rest of a pattern. -/
def parseRe : List Char → ParseState → Except String Re
  | [], st => .ok st.close
  | c :: rest, st =>
    if c = '|' then
      parseRe rest { alts := some st.close, seq := Re.empty, atom := none }
    else if c = '*' ∨ c = '+' ∨ c = '?' then
      match st.atom with
      | none =>
        .error ("error parsing regexp: missing argument to repetition operator: `"
          ++ c.toString ++ "`")
      | some a =>
        let rep := if c = '*' then Re.star a
          else if c = '+' then Re.cat a (Re.star a) else Re.alt a Re.empty
        parseRe rest { st with seq := Re.cat st.seq rep, atom := none }
    else if c = Char.ofNat 92 then
      match rest with
      | [] => .error "error parsing regexp: trailing backslash at end of expression: ``"
      | d :: rest2 =>
        if d.isAlphanum then .error "error parsing regexp: escape outside the fragment"
        else parseRe rest2 (st.push (Re.lit d))
    else if outsideFragment c then
      .error "error parsing regexp: operator outside the fragment"
    else if c = '.' then parseRe rest (st.push Re.anyChar)
    else if c = '^' then parseRe rest (st.push Re.bol)
    else if c = '$' then parseRe rest (st.push Re.eol)
    else parseRe rest (st.push (Re.lit c))

/-- Model of `regexp.Compile` on the fragment. -/
def compile (pattern : String) : Except String Re :=
  parseRe pattern.toList { alts := none, seq := Re.empty, atom := none }

/-- Whether the expression matches the characters `i` up to `j` of `s`. -/
def matchSpan (r : Re) (s : String) (i j : Nat) : Bool :=
  (r.ends s.toList i).contains j

/-! ### URLs -/

/-- Split a list at the first occurrence of `sep`; the second part is absent
when `sep` does not occur. -/
def cut (sep : Char) : List Char → List Char × Option (List Char)
  | [] => ([], none)
  | c :: cs =>
    if c = sep then ([], some cs)
    else ((cut sep cs).map (fun l => c :: l) id)

/-- The function `getScheme` of `net/url`, reading at position `i`: the scheme
and what follows the colon, or no scheme and the whole input. -/
def getScheme (whole : List Char) : List Char → Nat → Except String (List Char × List Char)
  | [], _ => .ok ([], whole)
  | c :: cs, i =>
    if c.isAlpha then getScheme whole cs (i + 1)
    else if c.isDigit ∨ c = '+' ∨ c = '-' ∨ c = '.' then
      if i = 0 then .ok ([], whole) else getScheme whole cs (i + 1)
    else if c = ':' then
      if i = 0 then .error "missing protocol scheme" else .ok (whole.take i, cs)
    else .ok ([], whole)

/-- The function `validOptionalPort` of `net/url`. -/
def validOptionalPort : List Char → Bool
  | [] => true
  | c :: cs => c = ':' && cs.all Char.isDigit

/-- The part of a host from its last colon on, empty when there is none. -/
def colonPort (host : List Char) : List Char :=
  match (cut ':' host.reverse).2 with
  | none => []
  | some _ => ':' :: (cut ':' host.reverse).1.reverse

/-- Whether a character of a URL lies outside the fragment: percent escapes,
user information, bracketed hosts and non-ASCII or blank characters. -/
def uncovered (c : Char) : Bool :=
  c = '%' || c = '@' || c = '[' || c = ']' || c = ' ' || 127 ≤ c.toNat

/-- The error `url.Parse` returns for an input and a cause. -/
def parseError (rawURL cause : String) : String :=
  "parse " ++ rawURL.quote ++ ": " ++ cause

/-- Model of `url.Parse` on the fragment. -/
def parseURL (rawURL : String) : Except String URL :=
  let (body, frag) := cut '#' rawURL.toList
  if rawURL.toList.any uncovered then
    .error (parseError rawURL "outside the fragment")
  else if body.any (fun c => c.toNat < 32) then
    .error (parseError rawURL "net/url: invalid control character in URL")
  else if body = ['*'] then
    .ok { Scheme := "", Opaque := "", User := none, Host := "", Path := "*", RawPath := "",
          ForceQuery := false, RawQuery := "", Fragment := String.mk (frag.getD []),
          RawFragment := "" }
  else
    match getScheme body body 0 with
    | .error e => .error (parseError rawURL e)
    | .ok (scheme, rest0) =>
      let scheme := scheme.map Char.toLower
      let force := rest0.getLast? = some '?' ∧ rest0.count '?' = 1
      let (rest, query) := if force then (rest0.dropLast, none) else cut '?' rest0
      let base : URL :=
        { Scheme := String.mk scheme, Opaque := "", User := none, Host := "", Path := "",
          RawPath := "", ForceQuery := force, RawQuery := String.mk (query.getD []),
          Fragment := String.mk (frag.getD []), RawFragment := "" }
      if rest.head? ≠ some '/' ∧ scheme ≠ [] then
        .ok { base with Opaque := String.mk rest }
      else if rest.head? ≠ some '/' ∧ (cut '/' rest).1.contains ':' then
        .error (parseError rawURL "first path segment in URL cannot contain colon")
      else if (scheme ≠ [] ∨ rest.take 3 ≠ ['/', '/', '/']) ∧ rest.take 2 = ['/', '/'] then
        let (host, path) := cut '/' (rest.drop 2)
        let path := match path with
          | none => []
          | some p => '/' :: p
        if validOptionalPort (colonPort host) then
          .ok { base with Host := String.mk host, Path := String.mk path }
        else
          .error (parseError rawURL
            ("invalid port " ++ (String.mk (colonPort host)).quote ++ " after host"))
      else
        .ok { base with Path := String.mk rest }

/-- Hexadecimal digit, upper case. -/
def hexDigit (n : Nat) : Char :=
  if n < 10 then Char.ofNat (48 + n) else Char.ofNat (55 + n)

/-- Percent escape of one byte. -/
def escapeByte (b : UInt8) : List Char :=
  ['%', hexDigit (b.toNat / 16), hexDigit (b.toNat % 16)]

/-- The function `shouldEscape` of `net/url` in the modes `encodePath`
(`inPath`) and `encodeFragment`. -/
def shouldEscape (inPath : Bool) (c : Char) : Bool :=
  if c.isAlphanum then false
  else if c = '-' ∨ c = '_' ∨ c = '.' ∨ c = '~' then false
  else if c = '$' ∨ c = '&' ∨ c = '+' ∨ c = ',' ∨ c = '/' ∨ c = ':' ∨ c = ';' ∨ c = '='
      ∨ c = '@' then false
  else if c = '?' then inPath
  else if ¬ inPath ∧ (c = '!' ∨ c = '(' ∨ c = ')' ∨ c = '*') then false
  else true

/-- The function `escape` of `net/url` in the same two modes. -/
def escape (inPath : Bool) (cs : List Char) : List Char :=
  cs.flatMap fun c =>
    if shouldEscape inPath c then (String.utf8EncodeChar c).flatMap escapeByte else [c]

/-- The method `(*URL).EscapedPath` when `RawPath` is empty. -/
def escapedPath (path : List Char) : List Char :=
  if path = ['*'] then path else escape true path

/-- Model of `(*URL).String` for a URL without user information and with empty
`RawPath` and `RawFragment`. -/
def urlString (u : URL) : String :=
  let scheme := if u.Scheme ≠ "" then u.Scheme ++ ":" else ""
  let rest :=
    if u.Opaque ≠ "" then u.Opaque
    else
      let auth :=
        if u.Scheme ≠ "" ∨ u.Host ≠ "" then
          (if u.Host ≠ "" ∨ u.Path ≠ "" then "//" else "") ++ u.Host
        else ""
      let path := escapedPath u.Path.toList
      let slash := if path ≠ [] ∧ path.head? ≠ some '/' ∧ u.Host ≠ "" then "/" else ""
      let dot :=
        if scheme = "" ∧ auth = "" ∧ slash = "" ∧ (cut ':' path).2.isSome
            ∧ ¬ (cut ':' path).1.contains '/' then "./"
        else ""
      auth ++ slash ++ dot ++ String.mk path
  let query := if u.ForceQuery ∨ u.RawQuery ≠ "" then "?" ++ u.RawQuery else ""
  let frag := if u.Fragment ≠ "" then "#" ++ String.mk (escape false u.Fragment.toList) else ""
  scheme ++ rest ++ query ++ frag

/-! ### Struct values and JSON -/

/-- A `structpb.Value` of the fragment: `unset` is a value none of whose
kinds is set, as decoded from an empty message on the wire. -/
inductive Value where
  | unset
  | null
  | number (n : Int)
  | bool (b : Bool)
  deriving DecidableEq, Repr

/-- A `structpb.Struct` of the fragment: its fields in key order. -/
abbrev Struct := List (String × Value)

/-- The JSON text of a value; `protojson` refuses a value without a kind. -/
def marshalValue : Value → Except String String
  | .unset => .error "proto: google.protobuf.Value: none of the oneof fields is set"
  | .null => .ok "null"
  | .number n => .ok (toString n)
  | .bool b => .ok (if b then "true" else "false")

/-- The JSON text of the fields of an object, comma separated. -/
def marshalFields : Struct → Except String String
  | [] => .ok ""
  | (k, v) :: rest =>
    match marshalValue v, marshalFields rest with
    | .error e, _ => .error e
    | .ok _, .error e => .error e
    | .ok j, .ok js => .ok (k.quote ++ ":" ++ j ++ (if rest = [] then "" else ",") ++ js)

/-- The UTF-8 bytes of a string. -/
def utf8 (s : String) : Bytes := s.toList.flatMap String.utf8EncodeChar

/-- Model of `protojson.Marshal` on a `Struct` of the fragment. -/
def marshalStruct (x : Struct) : Except String Bytes :=
  match marshalFields x with
  | .error e => .error e
  | .ok js => .ok (utf8 ("\x7b" ++ js ++ "\x7d"))

/-- The document the canned upstream answers with. -/
def okDocument : Bytes := utf8 "\x7b\"ok\": true\x7d"

/-- Decoder for the documents of the canned upstream. -/
def unmarshalJSON (b : Bytes) : Except String Struct :=
  if b = okDocument then .ok [("ok", Value.bool true)]
  else if b = [123, 125] then .ok []
  else .error "proto: syntax error outside the fragment"

/-! ### HTTP -/

/-- The function `isTokenRune` of `net/http` restricted to ASCII. -/
def isTokenChar (c : Char) : Bool :=
  c.isAlphanum || "!#$%&*+-.^_|~".toList.contains c || c = Char.ofNat 39 || c = Char.ofNat 96

/-- The error of `http.NewRequestWithContext`: an invalid method or a URL that
does not parse. -/
def requestError (method url : String) : Option String :=
  if ¬ method.toList.all isTokenChar then some ("net/http: invalid method " ++ method.quote)
  else
    match parseURL url with
    | .error e => some e
    | .ok _ => none

/-- Upper-case the first letter and every letter after a dash, lower-case the
others. -/
def canonicalChars : Bool → List Char → List Char
  | _, [] => []
  | upper, c :: cs => (if upper then c.toUpper else c.toLower) :: canonicalChars (c = '-') cs

/-- Model of `textproto.CanonicalMIMEHeaderKey`. -/
def canonicalMIMEHeaderKey (key : String) : String :=
  if key.toList.all isTokenChar then String.mk (canonicalChars true key.toList) else key

/-- An upstream that answers every request with `okDocument`. -/
def upstream (_ : Request) : Except String Answer :=
  .ok (.final { Body := .ok okDocument, Close := none })

/-- An upstream that answers a request for `https://allowed.example/x` with a
redirect (302) to the metadata service and every other request with
`okDocument`; the client follows the redirect with a GET without body. -/
def redirectingUpstream (req : Request) : Except String Answer :=
  if req.URL = "https://allowed.example/x" then
    .ok (.redirect { Method := "GET", URL := "http://169.254.169.254/latest/meta-data/",
                     Header := req.Header, Body := [] })
  else .ok (.final { Body := .ok okDocument, Close := none })

/-- The reference library. -/
def lib : Lib where
  Regexp := Re
  Compile := compile
  matchSpan := matchSpan
  Struct := Struct
  marshalStruct := marshalStruct
  UnmarshalJSON := unmarshalJSON
  Parse := parseURL
  URLString := urlString
  requestError := requestError
  CanonicalMIMEHeaderKey := canonicalMIMEHeaderKey
  send := upstream

/-- The reference library in front of the redirecting upstream. -/
def redirectingLib : Lib := { lib with send := redirectingUpstream }

/-- A configuration with the proxy enabled and the allow pattern of the
specification's example. -/
def exampleConfig : Config where
  proxyEndpoint := true
  proxyAllowRegexp := "^https://allowed\\.example"
  awsMetadataEndpoint := "http://169.254.169.254/latest/meta-data"
  intermittentErrors := 3

/-- A configuration with the proxy enabled and a pattern that admits the
metadata service. -/
def metadataConfig : Config where
  proxyEndpoint := true
  proxyAllowRegexp := "^http://169\\.254\\.169\\.254/"
  awsMetadataEndpoint := "http://169.254.169.254/latest/meta-data"
  intermittentErrors := 0

/-- A configuration with the proxy disabled and a pattern that does not
compile. -/
def disabledConfig : Config where
  proxyEndpoint := false
  proxyAllowRegexp := "*"
  awsMetadataEndpoint := "http://169.254.169.254/latest/meta-data"
  intermittentErrors := 0

/-- A request for a URL the pattern of `exampleConfig` rejects, with a body
that has a field without a kind. -/
def blockedRequest : ProxyRequest Struct where
  Method := "POST"
  Url := "https://blocked.example/x"
  Headers := [("Content-Type", "application/json")]
  Body := some [("k", Value.unset)]

/-- A request for a URL the pattern of `exampleConfig` admits. -/
def allowedRequest : ProxyRequest Struct where
  Method := "GET"
  Url := "https://allowed.example/x"
  Headers := []
  Body := none

end Ref

/-! ## Arithmetic of the counter -/

theorem wrapInt32_of_isInt32 {x : Int} (h : isInt32 x) : wrapInt32 x = x := by
  unfold isInt32 at h
  unfold wrapInt32
  omega

theorem Intermittent_below (cfg : Config) (s : InfrabinService)
    (h32 : isInt32 cfg.intermittentErrors) (h0 : 0 ≤ s.IntermittentErrorsCounter)
    (hlt : s.IntermittentErrorsCounter < cfg.intermittentErrors) :
    Intermittent cfg s =
      (.error ⟨Code.Unavailable,
          errorsLeft (cfg.intermittentErrors - s.IntermittentErrorsCounter)⟩,
        { IntermittentErrorsCounter := s.IntermittentErrorsCounter + 1 }) := by
  have hb := h32.2
  have h1 : wrapInt32 (s.IntermittentErrorsCounter + 1) = s.IntermittentErrorsCounter + 1 :=
    wrapInt32_of_isInt32 ⟨by omega, by omega⟩
  have h2 : wrapInt32 (cfg.intermittentErrors - (s.IntermittentErrorsCounter + 1))
      = cfg.intermittentErrors - (s.IntermittentErrorsCounter + 1) :=
    wrapInt32_of_isInt32 ⟨by omega, by omega⟩
  have h3 : wrapInt32 (cfg.intermittentErrors - (s.IntermittentErrorsCounter + 1) + 1)
      = cfg.intermittentErrors - s.IntermittentErrorsCounter := by
    rw [wrapInt32_of_isInt32 ⟨by omega, by omega⟩]
    omega
  simp only [Intermittent, if_pos hlt, h1, h2, h3]

theorem Intermittent_reached (cfg : Config) (s : InfrabinService)
    (hge : cfg.intermittentErrors ≤ s.IntermittentErrorsCounter) :
    Intermittent cfg s =
      (.ok { Intermittent := some { IntermittentErrors := cfg.intermittentErrors } },
        { IntermittentErrorsCounter := 0 }) := by
  have hn : ¬ s.IntermittentErrorsCounter < cfg.intermittentErrors := by omega
  simp only [Intermittent, if_neg hn]

theorem emod_succ_of_lt (k n : Int) (hn : 0 ≤ n) (h : k % (n + 1) < n) :
    (k + 1) % (n + 1) = k % (n + 1) + 1 := by
  have h0 : 0 ≤ k % (n + 1) := Int.emod_nonneg k (by omega)
  have hd := Int.ediv_add_emod k (n + 1)
  have : k + 1 = (k % (n + 1) + 1) + (n + 1) * (k / (n + 1)) := by omega
  rw [this, Int.add_mul_emod_self_left]
  exact Int.emod_eq_of_lt (by omega) (by omega)

theorem emod_succ_of_eq (k n : Int) (h : k % (n + 1) = n) :
    (k + 1) % (n + 1) = 0 := by
  have hd := Int.ediv_add_emod k (n + 1)
  have : k + 1 = 0 + (n + 1) * (k / (n + 1) + 1) := by
    rw [mul_add]
    omega
  rw [this, Int.add_mul_emod_self_left]
  simp

theorem counter_afterCalls (cfg : Config) (h0 : 0 ≤ cfg.intermittentErrors)
    (h32 : isInt32 cfg.intermittentErrors) (k : Nat) :
    afterCalls cfg k fresh =
      { IntermittentErrorsCounter := (k : Int) % (cfg.intermittentErrors + 1) } := by
  induction k with
  | zero => simp [afterCalls, fresh]
  | succ k ih =>
    have hr0 : 0 ≤ (k : Int) % (cfg.intermittentErrors + 1) := Int.emod_nonneg _ (by omega)
    have hrn : (k : Int) % (cfg.intermittentErrors + 1) < cfg.intermittentErrors + 1 :=
      Int.emod_lt_of_pos _ (by omega)
    simp only [afterCalls, ih]
    by_cases hlt : (k : Int) % (cfg.intermittentErrors + 1) < cfg.intermittentErrors
    · rw [Intermittent_below cfg _ h32 hr0 hlt]
      simp only [Nat.cast_succ]
      rw [emod_succ_of_lt _ _ h0 hlt]
    · rw [Intermittent_reached cfg _ (by simpa using hlt)]
      simp only [Nat.cast_succ]
      rw [emod_succ_of_eq _ _ (by omega)]

theorem afterThresholds_snoc (cfg : Config) (ts : List Int) (t : Int) (s : InfrabinService) :
    afterThresholds cfg (ts ++ [t]) s
      = (Intermittent (withThreshold cfg t) (afterThresholds cfg ts s)).2 := by
  induction ts generalizing s with
  | nil => simp [afterThresholds]
  | cons a ts ih => simp [afterThresholds, ih]

theorem Intermittent_counter_bounds (cfg : Config) (s : InfrabinService)
    (h32 : isInt32 cfg.intermittentErrors) (h0 : 0 ≤ s.IntermittentErrorsCounter) :
    0 ≤ (Intermittent cfg s).2.IntermittentErrorsCounter
      ∧ (Intermittent cfg s).2.IntermittentErrorsCounter ≤ max cfg.intermittentErrors 0 := by
  by_cases hlt : s.IntermittentErrorsCounter < cfg.intermittentErrors
  · rw [Intermittent_below cfg s h32 h0 hlt]
    simp only
    omega
  · rw [Intermittent_reached cfg s (by omega)]
    simp

theorem counter_afterThresholds_nonneg (cfg : Config) (ts : List Int)
    (hts : ∀ t ∈ ts, isInt32 t) (s : InfrabinService) (h0 : 0 ≤ s.IntermittentErrorsCounter) :
    0 ≤ (afterThresholds cfg ts s).IntermittentErrorsCounter := by
  induction ts generalizing s with
  | nil => simpa [afterThresholds] using h0
  | cons a ts ih =>
    simp only [afterThresholds]
    apply ih (fun t ht => hts t (List.mem_cons_of_mem _ ht))
    exact (Intermittent_counter_bounds (withThreshold cfg a) s
      (hts a (List.mem_cons_self _ _)) h0).1

/-! ## Intermittent -/

/-- C1: under a fixed threshold `n ≥ 0`, the `k`-th sequential call on a fresh
service, with `r = k mod (n+1)`, fails with Unavailable reporting `n - r + 1`
errors left and leaves the counter at `r` when `r ≠ 0`, and succeeds reporting
`n` and leaves the counter at `0` when `r = 0`; for `n = 0` every call succeeds
with `0` and leaves the service as it was. -/
theorem Intermittent_kth_call (cfg : Config) (n : Int) (hcfg : cfg.intermittentErrors = n)
    (hn : 0 ≤ n) (h32 : isInt32 n) (k : Nat) (hk : 1 ≤ k) :
    ((k : Int) % (n + 1) ≠ 0 →
        kthCall cfg k =
          (.error ⟨Code.Unavailable, errorsLeft (n - (k : Int) % (n + 1) + 1)⟩,
            { IntermittentErrorsCounter := (k : Int) % (n + 1) }))
      ∧ ((k : Int) % (n + 1) = 0 →
        kthCall cfg k =
          (.ok { Intermittent := some { IntermittentErrors := n } },
            { IntermittentErrorsCounter := 0 }))
      ∧ (n = 0 →
        kthCall cfg k = (.ok { Intermittent := some { IntermittentErrors := 0 } }, fresh)) := by
  subst hcfg
  obtain ⟨j, rfl⟩ : ∃ j, k = j + 1 := ⟨k - 1, by omega⟩
  have hr0 : 0 ≤ (j : Int) % (cfg.intermittentErrors + 1) := Int.emod_nonneg _ (by omega)
  have hrn : (j : Int) % (cfg.intermittentErrors + 1) < cfg.intermittentErrors + 1 :=
    Int.emod_lt_of_pos _ (by omega)
  have hstate : kthCall cfg (j + 1)
      = Intermittent cfg { IntermittentErrorsCounter := (j : Int) % (cfg.intermittentErrors + 1) } := by
    simp only [kthCall, Nat.add_sub_cancel, counter_afterCalls cfg hn h32 j]
  by_cases hlt : (j : Int) % (cfg.intermittentErrors + 1) < cfg.intermittentErrors
  · have hr : ((j + 1 : Nat) : Int) % (cfg.intermittentErrors + 1)
        = (j : Int) % (cfg.intermittentErrors + 1) + 1 := by
      rw [Nat.cast_succ]
      exact emod_succ_of_lt _ _ hn hlt
    rw [hstate, Intermittent_below cfg _ h32 hr0 hlt, hr]
    refine ⟨fun _ => ?_, fun h => ?_, fun h => ?_⟩
    · simp only
      congr 3
      congr 1
      omega
    · omega
    · simp only at hlt
      omega
  · have hr : ((j + 1 : Nat) : Int) % (cfg.intermittentErrors + 1) = 0 := by
      rw [Nat.cast_succ]
      exact emod_succ_of_eq _ _ (by omega)
    rw [hstate, Intermittent_reached cfg _ (by simpa using hlt), hr]
    refine ⟨fun h => absurd rfl h, fun _ => rfl, fun h => ?_⟩
    rw [h]
    rfl

/-- C1, evaluated: with threshold 3 the calls 1 to 5 fail with 3, 2, 1 errors
left, succeed reporting 3, and fail again with 3 errors left. -/
theorem Intermittent_kth_call_witness :
    kthCall Ref.exampleConfig 1
        = (.error ⟨Code.Unavailable, "3 errors left"⟩, { IntermittentErrorsCounter := 1 })
      ∧ kthCall Ref.exampleConfig 2
        = (.error ⟨Code.Unavailable, "2 errors left"⟩, { IntermittentErrorsCounter := 2 })
      ∧ kthCall Ref.exampleConfig 3
        = (.error ⟨Code.Unavailable, "1 errors left"⟩, { IntermittentErrorsCounter := 3 })
      ∧ kthCall Ref.exampleConfig 4
        = (.ok { Intermittent := some { IntermittentErrors := 3 } },
            { IntermittentErrorsCounter := 0 })
      ∧ kthCall Ref.exampleConfig 5
        = (.error ⟨Code.Unavailable, "3 errors left"⟩, { IntermittentErrorsCounter := 1 })
      ∧ kthCall (withThreshold Ref.exampleConfig 0) 7
        = (.ok { Intermittent := some { IntermittentErrors := 0 } }, fresh) :=
  ⟨(Intermittent_kth_call Ref.exampleConfig 3 rfl (by decide) (by decide) 1 (by decide)).1
      (by decide),
    (Intermittent_kth_call Ref.exampleConfig 3 rfl (by decide) (by decide) 2 (by decide)).1
      (by decide),
    (Intermittent_kth_call Ref.exampleConfig 3 rfl (by decide) (by decide) 3 (by decide)).1
      (by decide),
    (Intermittent_kth_call Ref.exampleConfig 3 rfl (by decide) (by decide) 4 (by decide)).2.1
      (by decide),
    (Intermittent_kth_call Ref.exampleConfig 3 rfl (by decide) (by decide) 5 (by decide)).1
      (by decide),
    (Intermittent_kth_call (withThreshold Ref.exampleConfig 0) 0 rfl (by decide) (by decide) 7
      (by decide)).2.2 rfl⟩

/-- C8: for a fixed threshold `t ≥ 0` the invariant `0 ≤ counter ≤ t` holds
for the initial counter, is preserved by every call of Intermittent, whether
the call fails or succeeds, and so holds after any number of sequential
calls. -/
theorem Intermittent_invariant (cfg : Config) (t : Int) (hcfg : cfg.intermittentErrors = t)
    (ht : 0 ≤ t) (h32 : isInt32 t) :
    counterInv t fresh
      ∧ (∀ s, counterInv t s → counterInv t (Intermittent cfg s).2)
      ∧ (∀ k, counterInv t (afterCalls cfg k fresh)) := by
  subst hcfg
  have hstep : ∀ s, counterInv cfg.intermittentErrors s →
      counterInv cfg.intermittentErrors (Intermittent cfg s).2 := by
    intro s hs
    have hb := Intermittent_counter_bounds cfg s h32 hs.1
    exact ⟨hb.1, by rw [max_eq_left ht] at hb; exact hb.2⟩
  have hinit : counterInv cfg.intermittentErrors fresh := ⟨le_refl _, ht⟩
  refine ⟨hinit, hstep, fun k => ?_⟩
  induction k with
  | zero => exact hinit
  | succ k ih => exact hstep _ ih

/-- C8, evaluated: with threshold 3 the invariant holds initially and after
four and five calls. -/
theorem Intermittent_invariant_witness :
    counterInv 3 fresh
      ∧ counterInv 3 (afterCalls Ref.exampleConfig 4 fresh)
      ∧ counterInv 3 (afterCalls Ref.exampleConfig 5 fresh) :=
  ⟨(Intermittent_invariant Ref.exampleConfig 3 rfl (by decide) (by decide)).1,
    (Intermittent_invariant Ref.exampleConfig 3 rfl (by decide) (by decide)).2.2 4,
    (Intermittent_invariant Ref.exampleConfig 3 rfl (by decide) (by decide)).2.2 5⟩

/-- C10: when each call reads its own `int32` threshold and the counter starts
at 0, the counter before any call is non-negative; in a call that finds the
counter below its threshold `t` neither the increment nor `t - counter + 1`
leaves the `int32` range, so the call stores `counter + 1` and reports
`t - (counter + 1) + 1` unwrapped; every failing call reports a count between 1
and `t`; and after the call the counter is between 0 and `max t 0`. -/
theorem Intermittent_reconfigured (cfg : Config) (ts : List Int) (hts : ∀ x ∈ ts, isInt32 x)
    (t : Int) (ht : isInt32 t) :
    0 ≤ (afterThresholds cfg ts fresh).IntermittentErrorsCounter
      ∧ ((afterThresholds cfg ts fresh).IntermittentErrorsCounter < t →
          isInt32 ((afterThresholds cfg ts fresh).IntermittentErrorsCounter + 1)
            ∧ isInt32 (t - ((afterThresholds cfg ts fresh).IntermittentErrorsCounter + 1))
            ∧ isInt32 (t - ((afterThresholds cfg ts fresh).IntermittentErrorsCounter + 1) + 1))
      ∧ ((afterThresholds cfg ts fresh).IntermittentErrorsCounter < t →
          Intermittent (withThreshold cfg t) (afterThresholds cfg ts fresh)
            = (.error ⟨Code.Unavailable,
                  errorsLeft (t - ((afterThresholds cfg ts fresh).IntermittentErrorsCounter + 1)
                    + 1)⟩,
                { IntermittentErrorsCounter :=
                    (afterThresholds cfg ts fresh).IntermittentErrorsCounter + 1 }))
      ∧ (∀ e, (Intermittent (withThreshold cfg t) (afterThresholds cfg ts fresh)).1 = .error e →
          ∃ m, 1 ≤ m ∧ m ≤ t ∧ e = ⟨Code.Unavailable, errorsLeft m⟩)
      ∧ 0 ≤ (afterThresholds cfg (ts ++ [t]) fresh).IntermittentErrorsCounter
      ∧ (afterThresholds cfg (ts ++ [t]) fresh).IntermittentErrorsCounter ≤ max t 0 := by
  have h0 := counter_afterThresholds_nonneg cfg ts hts fresh (le_refl _)
  have hb := Intermittent_counter_bounds (withThreshold cfg t) (afterThresholds cfg ts fresh) ht h0
  have htb := ht
  unfold isInt32 at htb
  refine ⟨h0, fun hlt => ?_, fun hlt => ?_, fun e he => ?_, ?_, ?_⟩
  · unfold isInt32
    omega
  · rw [Intermittent_below (withThreshold cfg t) _ ht h0 hlt]
    simp only [withThreshold]
    congr 3
    congr 1
    omega
  · by_cases hlt : (afterThresholds cfg ts fresh).IntermittentErrorsCounter < t
    · rw [Intermittent_below (withThreshold cfg t) _ ht h0 hlt] at he
      refine ⟨t - (afterThresholds cfg ts fresh).IntermittentErrorsCounter, by omega, by omega, ?_⟩
      simp only [withThreshold] at he
      injection he with he
      exact he.symm
    · rw [Intermittent_reached (withThreshold cfg t) _ (by simpa [withThreshold] using hlt)] at he
      simp at he
  · rw [afterThresholds_snoc]
    exact hb.1
  · rw [afterThresholds_snoc]
    exact hb.2

/-- C10, evaluated: thresholds 5, 5, 5 raise the counter to 3; a call with
threshold 1 then succeeds and brings the counter back within its bound. -/
theorem Intermittent_reconfigured_witness :
    (afterThresholds Ref.exampleConfig [5, 5, 5] fresh).IntermittentErrorsCounter = 3
      ∧ 0 ≤ (afterThresholds Ref.exampleConfig ([5, 5, 5] ++ [1]) fresh).IntermittentErrorsCounter
      ∧ (afterThresholds Ref.exampleConfig ([5, 5, 5] ++ [1]) fresh).IntermittentErrorsCounter
          ≤ max 1 0 :=
  ⟨by decide,
    (Intermittent_reconfigured Ref.exampleConfig [5, 5, 5] (by decide) 1 (by decide)).2.2.2.2⟩

/-! ## Outbound calls of the proxy -/

theorem headerSet_fold (L : Lib) (hs : List (String × String)) (req : Request) :
    (hs.foldl (fun q kv => L.headerSet q kv.1 kv.2) req).URL = req.URL
      ∧ (hs.foldl (fun q kv => L.headerSet q kv.1 kv.2) req).Method = req.Method
      ∧ (hs.foldl (fun q kv => L.headerSet q kv.1 kv.2) req).Body = req.Body := by
  induction hs generalizing req with
  | nil => exact ⟨rfl, rfl, rfl⟩
  | cons h hs ih =>
    simp only [List.foldl_cons]
    exact ⟨(ih _).1.trans rfl, (ih _).2.1.trans rfl, (ih _).2.2.trans rfl⟩

theorem NewRequestWithContext_ok (L : Lib) (method url : String) (body : Bytes) (req : Request)
    (h : L.NewRequestWithContext method url body = .ok req) :
    req.URL = url ∧ req.Method = (if method = "" then "GET" else method) ∧ req.Header = []
      ∧ req.Body = body := by
  unfold Lib.NewRequestWithContext at h
  split at h
  · cases h
  · injection h with h
    subst h
    exact ⟨rfl, rfl, rfl, rfl⟩

theorem follow_succ_error (L : Lib) (first : Request) (n : Nat) (last req : Request)
    (e : String) (h : L.send req = .error e) :
    L.follow first (n + 1) last req = (.error (urlError first req e), [req]) := by
  simp [Lib.follow, h]

theorem follow_succ_final (L : Lib) (first : Request) (n : Nat) (last req : Request)
    (resp : HTTPResponse) (h : L.send req = .ok (.final resp)) :
    L.follow first (n + 1) last req = (.ok resp, [req]) := by
  simp [Lib.follow, h]

theorem follow_succ_redirect (L : Lib) (first : Request) (n : Nat) (last req next : Request)
    (h : L.send req = .ok (.redirect next)) :
    L.follow first (n + 1) last req
      = ((L.follow first n req next).1, req :: (L.follow first n req next).2) := by
  simp [Lib.follow, h]

theorem follow_length (L : Lib) (first : Request) (n : Nat) (last req : Request) :
    (L.follow first n last req).2.length ≤ n := by
  induction n generalizing last req with
  | zero => simp [Lib.follow]
  | succ n ih =>
    cases h : L.send req with
    | error e => rw [follow_succ_error L first n last req e h]; simp
    | ok a =>
      cases a with
      | final resp => rw [follow_succ_final L first n last req resp h]; simp
      | redirect next =>
        rw [follow_succ_redirect L first n last req next h]
        simpa using ih req next

theorem follow_head (L : Lib) (first : Request) (n : Nat) (last req : Request) :
    (L.follow first (n + 1) last req).2.head? = some req := by
  cases h : L.send req with
  | error e => rw [follow_succ_error L first n last req e h]; rfl
  | ok a =>
    cases a with
    | final resp => rw [follow_succ_final L first n last req resp h]; rfl
    | redirect next => rw [follow_succ_redirect L first n last req next h]; rfl

theorem follow_chain (L : Lib) (first : Request) (n : Nat) (last req : Request)
    (i : Nat) (c d : Request)
    (hc : (L.follow first n last req).2.get? i = some c)
    (hd : (L.follow first n last req).2.get? (i + 1) = some d) :
    L.send c = .ok (.redirect d) := by
  induction n generalizing last req i with
  | zero => simp [Lib.follow] at hc
  | succ n ih =>
    cases h : L.send req with
    | error e =>
      rw [follow_succ_error L first n last req e h] at hd
      simp at hd
    | ok a =>
      cases a with
      | final resp =>
        rw [follow_succ_final L first n last req resp h] at hd
        simp at hd
      | redirect next =>
        rw [follow_succ_redirect L first n last req next h] at hc hd
        cases i with
        | zero =>
          have hreq : req = c := by simpa using hc
          subst hreq
          cases n with
          | zero => simp [Lib.follow] at hd
          | succ m =>
            have hh := follow_head L first m req next
            have hd2 : (L.follow first (m + 1) req next).2.head? = some d := by
              rw [List.head?_eq_getElem?]
              simpa using hd
            rw [hh] at hd2
            injection hd2 with hd2
            rw [← hd2]
            exact h
        | succ j =>
          exact ih req next j (by simpa using hc) (by simpa using hd)

theorem follow_no_redirect (L : Lib) (hno : ∀ q d, L.send q ≠ .ok (.redirect d))
    (first : Request) (n : Nat) (last req : Request) :
    (L.follow first (n + 1) last req).2 = [req] := by
  cases h : L.send req with
  | error e => rw [follow_succ_error L first n last req e h]
  | ok a =>
    cases a with
    | final resp => rw [follow_succ_final L first n last req resp h]
    | redirect next => exact absurd h (hno req next)

theorem forward_sent_eq (L : Lib) (request : ProxyRequest L.Struct) (b : Bytes) :
    ((forward L request b).calls = [] ∧ (forward L request b).sent = [])
      ∨ ∃ req, (forward L request b).calls = [req]
          ∧ (forward L request b).sent = (L.Do req).2 := by
  unfold forward
  split
  · exact Or.inl ⟨rfl, rfl⟩
  · rename_i req0 hreq
    refine Or.inr ⟨request.Headers.foldl (fun q kv => L.headerSet q kv.1 kv.2) req0, ?_, ?_⟩
    · dsimp only
      repeat' split
      all_goals rfl
    · dsimp only
      repeat' split
      all_goals rfl

theorem forward_calls_eq (L : Lib) (request : ProxyRequest L.Struct) (b : Bytes) :
    (forward L request b).calls = []
      ∨ ∃ req0, L.NewRequestWithContext request.Method request.Url b = .ok req0
          ∧ (forward L request b).calls
              = [request.Headers.foldl (fun q kv => L.headerSet q kv.1 kv.2) req0] := by
  unfold forward
  split
  · exact Or.inl rfl
  · rename_i req0 hreq
    refine Or.inr ⟨req0, hreq, ?_⟩
    dsimp only
    repeat' split
    all_goals rfl

theorem forward_calls (L : Lib) (request : ProxyRequest L.Struct) (b : Bytes) :
    (forward L request b).calls.length ≤ 1
      ∧ ∀ c ∈ (forward L request b).calls,
          c.URL = request.Url
            ∧ c.Method = (if request.Method = "" then "GET" else request.Method)
            ∧ c.Body = b := by
  rcases forward_calls_eq L request b with h | ⟨req0, hreq, h⟩
  · rw [h]
    simp
  · rw [h]
    have h0 := NewRequestWithContext_ok L _ _ _ _ hreq
    have hf := headerSet_fold L request.Headers req0
    refine ⟨by simp, fun c hc => ?_⟩
    rw [List.mem_singleton] at hc
    subst hc
    exact ⟨hf.1.trans h0.1, hf.2.1.trans h0.2.1, hf.2.2.trans h0.2.2.2⟩

theorem Proxy_of_disabled (L : Lib) (cfg : Config) (request : ProxyRequest L.Struct)
    (h : cfg.proxyEndpoint = false) :
    Proxy L cfg request = Outcome.fail Code.Unimplemented
      "Proxy endpoint disabled. Enabled with --enable-proxy-endpoint" := by
  simp [Proxy, h]

theorem Proxy_of_compile_error (L : Lib) (cfg : Config) (request : ProxyRequest L.Struct)
    (h : cfg.proxyEndpoint = true) (e : String)
    (hc : L.Compile cfg.proxyAllowRegexp = .error e) :
    Proxy L cfg request = Outcome.fail Code.Internal
      ("Unable to compile " ++ cfg.proxyAllowRegexp ++ " regexp: " ++ e) := by
  simp [Proxy, h, hc]

theorem Proxy_of_marshal_error (L : Lib) (cfg : Config) (request : ProxyRequest L.Struct)
    (h : cfg.proxyEndpoint = true) (r : L.Regexp) (hc : L.Compile cfg.proxyAllowRegexp = .ok r)
    (e : String) (hm : L.MarshalJSON request.Body = .error e) :
    Proxy L cfg request = Outcome.fail Code.Internal
      ("Unable to marshal downstream request body: " ++ e) := by
  simp [Proxy, h, hc, hm]

theorem Proxy_of_blocked (L : Lib) (cfg : Config) (request : ProxyRequest L.Struct)
    (h : cfg.proxyEndpoint = true) (r : L.Regexp) (hc : L.Compile cfg.proxyAllowRegexp = .ok r)
    (b : Bytes) (hm : L.MarshalJSON request.Body = .ok b)
    (hu : L.MatchString r request.Url = false) :
    Proxy L cfg request = Outcome.fail Code.InvalidArgument
      (blockedMessage request.Url cfg.proxyAllowRegexp) := by
  simp [Proxy, h, hc, hm, hu]

theorem Proxy_of_allowed (L : Lib) (cfg : Config) (request : ProxyRequest L.Struct)
    (h : cfg.proxyEndpoint = true) (r : L.Regexp) (hc : L.Compile cfg.proxyAllowRegexp = .ok r)
    (b : Bytes) (hm : L.MarshalJSON request.Body = .ok b)
    (hu : L.MatchString r request.Url = true) :
    Proxy L cfg request = forward L request b := by
  simp [Proxy, h, hc, hm, hu]

theorem forward_result_ne_blocked (L : Lib) (request : ProxyRequest L.Struct) (b : Bytes)
    (msg : String) :
    (forward L request b).result ≠ .error ⟨Code.InvalidArgument, msg⟩ := by
  unfold forward
  split
  · simp [Outcome.fail]
  · dsimp only
    repeat' split
    all_goals simp

theorem MatchString_iff (L : Lib) (r : L.Regexp) (s : String) :
    L.MatchString r s = true
      ↔ ∃ i j, i ≤ j ∧ j ≤ s.length ∧ L.matchSpan r s i j = true := by
  unfold Lib.MatchString
  simp only [List.any_eq_true, List.mem_range, Bool.and_eq_true, decide_eq_true_eq]
  constructor
  · rintro ⟨i, _, j, hj, hij, hm⟩
    exact ⟨i, j, hij, by omega, hm⟩
  · rintro ⟨i, j, hij, hj, hm⟩
    exact ⟨i, by omega, j, by omega, hij, hm⟩

theorem MarshalJSON_nil (L : Lib) : L.MarshalJSON none = .ok [123, 125] := rfl

theorem Proxy_calls_target (L : Lib) (cfg : Config) (request : ProxyRequest L.Struct) :
    (Proxy L cfg request).calls.length ≤ 1
      ∧ ∀ c ∈ (Proxy L cfg request).calls,
          c.URL = request.Url
            ∧ c.Method = (if request.Method = "" then "GET" else request.Method) := by
  cases hflag : cfg.proxyEndpoint with
  | false =>
    rw [Proxy_of_disabled L cfg request hflag]
    simp [Outcome.fail]
  | true =>
    cases hc : L.Compile cfg.proxyAllowRegexp with
    | error e =>
      rw [Proxy_of_compile_error L cfg request hflag e hc]
      simp [Outcome.fail]
    | ok r =>
      cases hm : L.MarshalJSON request.Body with
      | error e =>
        rw [Proxy_of_marshal_error L cfg request hflag r hc e hm]
        simp [Outcome.fail]
      | ok b =>
        cases hu : L.MatchString r request.Url with
        | false =>
          rw [Proxy_of_blocked L cfg request hflag r hc b hm hu]
          simp [Outcome.fail]
        | true =>
          rw [Proxy_of_allowed L cfg request hflag r hc b hm hu]
          have hf := forward_calls L request b
          exact ⟨hf.1, fun c hmem => ⟨(hf.2 c hmem).1, (hf.2 c hmem).2.1⟩⟩

theorem Proxy_sent_eq (L : Lib) (cfg : Config) (request : ProxyRequest L.Struct) :
    ((Proxy L cfg request).calls = [] ∧ (Proxy L cfg request).sent = [])
      ∨ ∃ req, (Proxy L cfg request).calls = [req]
          ∧ (Proxy L cfg request).sent = (L.Do req).2 := by
  cases hflag : cfg.proxyEndpoint with
  | false =>
    rw [Proxy_of_disabled L cfg request hflag]
    exact Or.inl ⟨rfl, rfl⟩
  | true =>
    cases hc : L.Compile cfg.proxyAllowRegexp with
    | error e =>
      rw [Proxy_of_compile_error L cfg request hflag e hc]
      exact Or.inl ⟨rfl, rfl⟩
    | ok r =>
      cases hm : L.MarshalJSON request.Body with
      | error e =>
        rw [Proxy_of_marshal_error L cfg request hflag r hc e hm]
        exact Or.inl ⟨rfl, rfl⟩
      | ok b =>
        cases hu : L.MatchString r request.Url with
        | false =>
          rw [Proxy_of_blocked L cfg request hflag r hc b hm hu]
          exact Or.inl ⟨rfl, rfl⟩
        | true =>
          rw [Proxy_of_allowed L cfg request hflag r hc b hm hu]
          exact forward_sent_eq L request b

/-! ## Proxy -/

/-- C2: whenever the `proxyEndpoint` flag is false, whatever the request, the
pattern and the libraries, Proxy fails with Unimplemented and issues no
outbound call: no request is handed to the client and none is sent. -/
theorem Proxy_disabled (L : Lib) (cfg : Config) (request : ProxyRequest L.Struct)
    (h : cfg.proxyEndpoint = false) :
    (Proxy L cfg request).result
        = .error ⟨Code.Unimplemented,
            "Proxy endpoint disabled. Enabled with --enable-proxy-endpoint"⟩
      ∧ (Proxy L cfg request).calls = []
      ∧ (Proxy L cfg request).sent = [] := by
  rw [Proxy_of_disabled L cfg request h]
  exact ⟨rfl, rfl, rfl⟩

/-- C2, evaluated: with the flag off and a pattern that does not compile, the
request is refused as unimplemented and nothing is sent. -/
theorem Proxy_disabled_witness :
    Ref.lib.Compile Ref.disabledConfig.proxyAllowRegexp
        = .error "error parsing regexp: missing argument to repetition operator: `*`"
      ∧ (Proxy Ref.lib Ref.disabledConfig Ref.allowedRequest).result
        = .error ⟨Code.Unimplemented,
            "Proxy endpoint disabled. Enabled with --enable-proxy-endpoint"⟩
      ∧ (Proxy Ref.lib Ref.disabledConfig Ref.allowedRequest).calls = []
      ∧ (Proxy Ref.lib Ref.disabledConfig Ref.allowedRequest).sent = [] :=
  ⟨rfl, Proxy_disabled Ref.lib Ref.disabledConfig Ref.allowedRequest rfl⟩

/-- C3, as stated, fails: for an admitted URL whose upstream answers with a
redirect, the client follows it, so two requests are sent and the second goes
to a URL the pattern does not match and that is not `request.Url`. -/
theorem Proxy_redirect_counterexample :
    (Proxy Ref.redirectingLib Ref.exampleConfig Ref.allowedRequest).sent.map Request.URL
        = ["https://allowed.example/x", "http://169.254.169.254/latest/meta-data/"]
      ∧ (∃ r, Ref.redirectingLib.Compile Ref.exampleConfig.proxyAllowRegexp = .ok r
          ∧ Ref.redirectingLib.MatchString r "http://169.254.169.254/latest/meta-data/" = false)
      ∧ ¬ (Proxy Ref.redirectingLib Ref.exampleConfig Ref.allowedRequest).sent.length ≤ 1
      ∧ ¬ (∀ c ∈ (Proxy Ref.redirectingLib Ref.exampleConfig Ref.allowedRequest).sent,
            c.URL = Ref.allowedRequest.Url) := by
  refine ⟨by decide, ⟨_, rfl, by decide⟩, by decide, ?_⟩
  intro h
  have h2 := h { Method := "GET", URL := "http://169.254.169.254/latest/meta-data/",
                 Header := [], Body := [] } (by decide)
  revert h2
  decide

/-- C3, amended: Proxy hands at most one request to the HTTP client, only with
the flag on and a pattern that compiled and matches `request.Url`, and that
request is addressed to exactly `request.Url`. Requests are sent only for such a
request: the first one sent is the request handed to the client, at most ten
are sent, and each later one is the request the client derived from the
redirect answer to the one before, with no check against the pattern. When the
upstream never answers with a redirect, the requests sent are exactly the
requests handed to the client. -/
theorem Proxy_calls_admitted (L : Lib) (cfg : Config) (request : ProxyRequest L.Struct) :
    (Proxy L cfg request).calls.length ≤ 1
      ∧ (∀ c ∈ (Proxy L cfg request).calls,
          cfg.proxyEndpoint = true
            ∧ (∃ r, L.Compile cfg.proxyAllowRegexp = .ok r
                ∧ L.MatchString r request.Url = true)
            ∧ c.URL = request.Url)
      ∧ (∀ c, (Proxy L cfg request).sent.head? = some c → c ∈ (Proxy L cfg request).calls)
      ∧ (Proxy L cfg request).sent.length ≤ 10
      ∧ (∀ i c d, (Proxy L cfg request).sent.get? i = some c →
          (Proxy L cfg request).sent.get? (i + 1) = some d →
          L.send c = .ok (.redirect d))
      ∧ ((∀ q d, L.send q ≠ .ok (.redirect d)) →
          (Proxy L cfg request).sent = (Proxy L cfg request).calls) := by
  have hcalls : (Proxy L cfg request).calls.length ≤ 1
      ∧ (∀ c ∈ (Proxy L cfg request).calls,
          cfg.proxyEndpoint = true
            ∧ (∃ r, L.Compile cfg.proxyAllowRegexp = .ok r
                ∧ L.MatchString r request.Url = true)
            ∧ c.URL = request.Url) := by
    cases hflag : cfg.proxyEndpoint with
    | false =>
      rw [Proxy_of_disabled L cfg request hflag]
      simp [Outcome.fail]
    | true =>
      cases hc : L.Compile cfg.proxyAllowRegexp with
      | error e =>
        rw [Proxy_of_compile_error L cfg request hflag e hc]
        simp [Outcome.fail]
      | ok r =>
        cases hm : L.MarshalJSON request.Body with
        | error e =>
          rw [Proxy_of_marshal_error L cfg request hflag r hc e hm]
          simp [Outcome.fail]
        | ok b =>
          cases hu : L.MatchString r request.Url with
          | false =>
            rw [Proxy_of_blocked L cfg request hflag r hc b hm hu]
            simp [Outcome.fail]
          | true =>
            rw [Proxy_of_allowed L cfg request hflag r hc b hm hu]
            have hf := forward_calls L request b
            exact ⟨hf.1, fun c hmem => ⟨rfl, ⟨r, rfl, hu⟩, (hf.2 c hmem).1⟩⟩
  refine ⟨hcalls.1, hcalls.2, ?_⟩
  rcases Proxy_sent_eq L cfg request with ⟨h1, h2⟩ | ⟨req, h1, h2⟩
  · rw [h1, h2]
    simp
  · rw [h1, h2]
    refine ⟨fun c hc => ?_, follow_length L req 10 req req, fun i c d hc hd => ?_, fun hno => ?_⟩
    · have hh := follow_head L req 9 req req
      have hc2 : (L.follow req (9 + 1) req req).2.head? = some c := hc
      rw [hh] at hc2
      injection hc2 with hc2
      rw [← hc2]
      exact List.mem_singleton.2 rfl
    · exact follow_chain L req 10 req req i c d hc hd
    · exact follow_no_redirect L hno req 9 req req

/-- C3, evaluated: behind the redirecting upstream the admitted request is the
one request handed to the client and the first of the two sent; behind the
upstream that never redirects it is the only one sent. -/
theorem Proxy_calls_admitted_witness :
    (Proxy Ref.redirectingLib Ref.exampleConfig Ref.allowedRequest).calls
        = [{ Method := "GET", URL := "https://allowed.example/x", Header := [],
             Body := [123, 125] }]
      ∧ (Proxy Ref.redirectingLib Ref.exampleConfig Ref.allowedRequest).sent.length = 2
      ∧ (Ref.exampleConfig.proxyEndpoint = true
          ∧ (∃ r, Ref.redirectingLib.Compile Ref.exampleConfig.proxyAllowRegexp = .ok r
              ∧ Ref.redirectingLib.MatchString r Ref.allowedRequest.Url = true)
          ∧ "https://allowed.example/x" = Ref.allowedRequest.Url)
      ∧ Ref.redirectingLib.send
          { Method := "GET", URL := "https://allowed.example/x", Header := [],
            Body := [123, 125] }
          = .ok (.redirect { Method := "GET",
                             URL := "http://169.254.169.254/latest/meta-data/",
                             Header := [], Body := [] })
      ∧ (Proxy Ref.lib Ref.exampleConfig Ref.allowedRequest).sent
          = (Proxy Ref.lib Ref.exampleConfig Ref.allowedRequest).calls :=
  ⟨rfl, rfl,
    (Proxy_calls_admitted Ref.redirectingLib Ref.exampleConfig Ref.allowedRequest).2.1
      { Method := "GET", URL := "https://allowed.example/x", Header := [], Body := [123, 125] }
      (by decide),
    (Proxy_calls_admitted Ref.redirectingLib Ref.exampleConfig Ref.allowedRequest).2.2.2.2.1 0
      _ _ rfl rfl,
    (Proxy_calls_admitted Ref.lib Ref.exampleConfig Ref.allowedRequest).2.2.2.2.2
      (fun q d h => by cases h)⟩

/-- C4, as stated, fails: with the flag on and a valid pattern that does not
match the URL, a body holding a value without a kind makes Proxy return the
Internal marshalling error instead of the InvalidArgument policy error. -/
theorem Proxy_marshal_before_policy_counterexample :
    Ref.exampleConfig.proxyEndpoint = true
      ∧ (∃ r, Ref.lib.Compile Ref.exampleConfig.proxyAllowRegexp = .ok r
          ∧ Ref.lib.MatchString r Ref.blockedRequest.Url = false)
      ∧ (Proxy Ref.lib Ref.exampleConfig Ref.blockedRequest).result
          = .error ⟨Code.Internal, "Unable to marshal downstream request body: "
              ++ "proto: google.protobuf.Value: none of the oneof fields is set"⟩
      ∧ (Proxy Ref.lib Ref.exampleConfig Ref.blockedRequest).result
          ≠ .error ⟨Code.InvalidArgument,
              blockedMessage Ref.blockedRequest.Url Ref.exampleConfig.proxyAllowRegexp⟩ := by
  refine ⟨rfl, ⟨_, rfl, by decide⟩, rfl, ?_⟩
  intro h
  have h2 : (Proxy Ref.lib Ref.exampleConfig Ref.blockedRequest).result
      = .error ⟨Code.Internal, "Unable to marshal downstream request body: "
          ++ "proto: google.protobuf.Value: none of the oneof fields is set"⟩ := rfl
  rw [h2] at h
  injection h with h
  injection h with hcode _
  cases hcode

/-- C4, amended: with the flag on and a valid pattern that does not match
`request.Url`, Proxy issues no call and nothing is sent; when the body serialises it fails with
InvalidArgument and a message naming the URL and the pattern, whatever the
method and headers; when the body does not serialise it fails with the Internal
marshalling error. -/
theorem Proxy_blocked (L : Lib) (cfg : Config) (request : ProxyRequest L.Struct)
    (hflag : cfg.proxyEndpoint = true) (r : L.Regexp)
    (hc : L.Compile cfg.proxyAllowRegexp = .ok r)
    (hu : L.MatchString r request.Url = false) :
    (Proxy L cfg request).calls = []
      ∧ (Proxy L cfg request).sent = []
      ∧ (∀ b, L.MarshalJSON request.Body = .ok b →
          (Proxy L cfg request).result
            = .error ⟨Code.InvalidArgument,
                "Unable to build request as the target URL " ++ request.Url
                  ++ " is blocked by the regexp " ++ cfg.proxyAllowRegexp⟩)
      ∧ (∀ e, L.MarshalJSON request.Body = .error e →
          (Proxy L cfg request).result
            = .error ⟨Code.Internal, "Unable to marshal downstream request body: " ++ e⟩) := by
  refine ⟨?_, ?_, fun b hm => ?_, fun e hm => ?_⟩
  · cases hm : L.MarshalJSON request.Body with
    | error e => rw [Proxy_of_marshal_error L cfg request hflag r hc e hm]; rfl
    | ok b => rw [Proxy_of_blocked L cfg request hflag r hc b hm hu]; rfl
  · cases hm : L.MarshalJSON request.Body with
    | error e => rw [Proxy_of_marshal_error L cfg request hflag r hc e hm]; rfl
    | ok b => rw [Proxy_of_blocked L cfg request hflag r hc b hm hu]; rfl
  · rw [Proxy_of_blocked L cfg request hflag r hc b hm hu]; rfl
  · rw [Proxy_of_marshal_error L cfg request hflag r hc e hm]; rfl

/-- C4, evaluated: the specification's pattern rejects the specification's URL
with a message naming both, when the request has no body. -/
theorem Proxy_blocked_witness :
    (Proxy Ref.lib Ref.exampleConfig
        { Ref.blockedRequest with Body := none }).calls = []
      ∧ (Proxy Ref.lib Ref.exampleConfig { Ref.blockedRequest with Body := none }).result
          = .error ⟨Code.InvalidArgument,
              "Unable to build request as the target URL https://blocked.example/x"
                ++ " is blocked by the regexp ^https://allowed\\.example"⟩ :=
  ⟨(Proxy_blocked Ref.lib Ref.exampleConfig { Ref.blockedRequest with Body := none } rfl
      _ rfl (by decide)).1,
    (Proxy_blocked Ref.lib Ref.exampleConfig { Ref.blockedRequest with Body := none } rfl
      _ rfl (by decide)).2.2.1 [123, 125] rfl⟩

/-- C9: with the flag on, a pattern that does not compile makes Proxy fail with
the Internal error `Unable to compile ... regexp`, issue no call and send nothing, whatever
the request; with a pattern that compiles, the allowlist check passes exactly
when some span of the URL matches the pattern, for a URL without such a span no
call is issued and nothing is sent, and for a body that serialises Proxy returns the policy error
exactly when no span matches. -/
theorem Proxy_pattern (L : Lib) (cfg : Config) (request : ProxyRequest L.Struct)
    (hflag : cfg.proxyEndpoint = true) :
    (∀ e, L.Compile cfg.proxyAllowRegexp = .error e →
        (Proxy L cfg request).result
            = .error ⟨Code.Internal,
                "Unable to compile " ++ cfg.proxyAllowRegexp ++ " regexp: " ++ e⟩
          ∧ (Proxy L cfg request).calls = []
          ∧ (Proxy L cfg request).sent = [])
      ∧ (∀ r, L.Compile cfg.proxyAllowRegexp = .ok r →
          (L.MatchString r request.Url = true
              ↔ ∃ i j, i ≤ j ∧ j ≤ request.Url.length ∧ L.matchSpan r request.Url i j = true)
            ∧ ((¬ ∃ i j, i ≤ j ∧ j ≤ request.Url.length
                  ∧ L.matchSpan r request.Url i j = true) →
                (Proxy L cfg request).calls = [] ∧ (Proxy L cfg request).sent = [])
            ∧ (∀ b, L.MarshalJSON request.Body = .ok b →
                ((Proxy L cfg request).result
                    = .error ⟨Code.InvalidArgument,
                        blockedMessage request.Url cfg.proxyAllowRegexp⟩
                  ↔ ¬ ∃ i j, i ≤ j ∧ j ≤ request.Url.length
                      ∧ L.matchSpan r request.Url i j = true)
                ∧ ((∃ i j, i ≤ j ∧ j ≤ request.Url.length
                      ∧ L.matchSpan r request.Url i j = true) →
                    Proxy L cfg request = forward L request b))) := by
  refine ⟨fun e hc => ?_, fun r hc => ⟨MatchString_iff L r request.Url, fun hno => ?_,
    fun b hm => ⟨?_, fun hyes => ?_⟩⟩⟩
  · rw [Proxy_of_compile_error L cfg request hflag e hc]
    exact ⟨rfl, rfl, rfl⟩
  · have hu : L.MatchString r request.Url = false := by
      rw [← Bool.not_eq_true, MatchString_iff]
      exact hno
    cases hm : L.MarshalJSON request.Body with
    | error e => rw [Proxy_of_marshal_error L cfg request hflag r hc e hm]; exact ⟨rfl, rfl⟩
    | ok b => rw [Proxy_of_blocked L cfg request hflag r hc b hm hu]; exact ⟨rfl, rfl⟩
  · rw [← MatchString_iff]
    cases hu : L.MatchString r request.Url with
    | false =>
      rw [Proxy_of_blocked L cfg request hflag r hc b hm hu]
      simp [Outcome.fail]
    | true =>
      rw [Proxy_of_allowed L cfg request hflag r hc b hm hu]
      simp only [not_true_eq_false, iff_false]
      exact forward_result_ne_blocked L request b _
  · exact Proxy_of_allowed L cfg request hflag r hc b hm ((MatchString_iff L r request.Url).2 hyes)

/-- C9, evaluated: the pattern `*` does not compile and the request fails with
the Internal error without a call; the specification's pattern matches the
characters 0 to 23 of the admitted URL, not the whole of it, and the request is
forwarded. -/
theorem Proxy_pattern_witness :
    ((Proxy Ref.lib { Ref.exampleConfig with proxyAllowRegexp := "*" } Ref.allowedRequest).result
          = .error ⟨Code.Internal, "Unable to compile * regexp: "
              ++ "error parsing regexp: missing argument to repetition operator: `*`"⟩
        ∧ (Proxy Ref.lib { Ref.exampleConfig with proxyAllowRegexp := "*" }
            Ref.allowedRequest).calls = []
        ∧ (Proxy Ref.lib { Ref.exampleConfig with proxyAllowRegexp := "*" }
            Ref.allowedRequest).sent = [])
      ∧ (∃ r, Ref.lib.Compile Ref.exampleConfig.proxyAllowRegexp = .ok r
          ∧ Ref.lib.matchSpan r Ref.allowedRequest.Url 0 Ref.allowedRequest.Url.length = false)
      ∧ Proxy Ref.lib Ref.exampleConfig Ref.allowedRequest
          = forward Ref.lib Ref.allowedRequest [123, 125] :=
  ⟨(Proxy_pattern Ref.lib { Ref.exampleConfig with proxyAllowRegexp := "*" }
      Ref.allowedRequest rfl).1 _ rfl,
    ⟨_, rfl, by decide⟩,
    ((Proxy_pattern Ref.lib Ref.exampleConfig Ref.allowedRequest rfl).2 _ rfl).2.2
      [123, 125] rfl |>.2 ⟨0, 23, by decide, by decide, by decide⟩⟩

/-! ## AWSMetadata -/

theorem AWSMetadata_of_parsed (L : Lib) (cfg : Config) (p : String) (hp : p ≠ "") (u : URL)
    (hu : L.Parse cfg.awsMetadataEndpoint = .ok u) :
    AWSMetadata L cfg { Path := p }
      = Proxy L cfg
          { Method := "GET", Url := L.URLString { u with Path := p }, Headers := [],
            Body := none } := by
  simp [AWSMetadata, hp, hu]

/-- C5, as stated, fails: the base URL has path `/latest/meta-data`, the request
path is `/hostname`, and the GET goes to `http://169.254.169.254/hostname`, not
to `http://169.254.169.254/latest/meta-data/hostname`. -/
theorem AWSMetadata_appends_counterexample :
    (∃ u, Ref.lib.Parse Ref.metadataConfig.awsMetadataEndpoint = .ok u
        ∧ u.Path = "/latest/meta-data")
      ∧ (AWSMetadata Ref.lib Ref.metadataConfig { Path := "/hostname" }).calls.map Request.URL
          = ["http://169.254.169.254/hostname"]
      ∧ (AWSMetadata Ref.lib Ref.metadataConfig { Path := "/hostname" }).calls.map Request.URL
          ≠ ["http://169.254.169.254/latest/meta-data/hostname"] :=
  ⟨⟨_, rfl, rfl⟩, by decide, by decide⟩

/-- C5, amended: for a base URL that parses to `u` and a non-empty request
path `p`, AWSMetadata hands Proxy the URL `u` with its path replaced by `p`, and
every request it hands to the HTTP client is a GET to that URL. -/
theorem AWSMetadata_target (L : Lib) (cfg : Config) (p : String) (hp : p ≠ "") (u : URL)
    (hu : L.Parse cfg.awsMetadataEndpoint = .ok u) :
    AWSMetadata L cfg { Path := p }
        = Proxy L cfg
            { Method := "GET", Url := L.URLString { u with Path := p }, Headers := [],
              Body := none }
      ∧ ∀ c ∈ (AWSMetadata L cfg { Path := p }).calls,
          c.Method = "GET" ∧ c.URL = L.URLString { u with Path := p } := by
  refine ⟨AWSMetadata_of_parsed L cfg p hp u hu, fun c hc => ?_⟩
  rw [AWSMetadata_of_parsed L cfg p hp u hu] at hc
  refine ⟨?_, ((Proxy_calls_target L cfg _).2 c hc).1⟩
  exact ((Proxy_calls_target L cfg _).2 c hc).2

/-- C5, evaluated: base `http://169.254.169.254/latest/meta-data` and path
`/hostname` give a GET to `http://169.254.169.254/hostname`. -/
theorem AWSMetadata_target_witness :
    AWSMetadata Ref.lib Ref.metadataConfig { Path := "/hostname" }
        = Proxy Ref.lib Ref.metadataConfig
            { Method := "GET", Url := "http://169.254.169.254/hostname", Headers := [],
              Body := none }
      ∧ (AWSMetadata Ref.lib Ref.metadataConfig { Path := "/hostname" }).calls
        = [{ Method := "GET", URL := "http://169.254.169.254/hostname", Header := [],
             Body := [123, 125] }] :=
  ⟨(AWSMetadata_target Ref.lib Ref.metadataConfig "/hostname" (by decide) _ rfl).1, rfl⟩

/-- C6: for a non-empty path `p` and a base URL that parses to `u`, AWSMetadata
returns what Proxy returns on the request with method GET, no headers, no body
and the URL of `u` with only its path replaced by `p`; so it fails with
Unimplemented when the flag is off, and with the policy error when the flag is
on and the compiled pattern does not match that URL. -/
theorem AWSMetadata_delegates (L : Lib) (cfg : Config) (p : String) (hp : p ≠ "") (u : URL)
    (hu : L.Parse cfg.awsMetadataEndpoint = .ok u) :
    AWSMetadata L cfg { Path := p }
        = Proxy L cfg
            { Method := "GET",
              Url := L.URLString
                { Scheme := u.Scheme, Opaque := u.Opaque, User := u.User, Host := u.Host,
                  Path := p, RawPath := u.RawPath, ForceQuery := u.ForceQuery,
                  RawQuery := u.RawQuery, Fragment := u.Fragment,
                  RawFragment := u.RawFragment },
              Headers := [], Body := none }
      ∧ (cfg.proxyEndpoint = false →
          AWSMetadata L cfg { Path := p }
            = Outcome.fail Code.Unimplemented
                "Proxy endpoint disabled. Enabled with --enable-proxy-endpoint")
      ∧ (cfg.proxyEndpoint = true → ∀ r, L.Compile cfg.proxyAllowRegexp = .ok r →
          L.MatchString r (L.URLString { u with Path := p }) = false →
          AWSMetadata L cfg { Path := p }
            = Outcome.fail Code.InvalidArgument
                (blockedMessage (L.URLString { u with Path := p }) cfg.proxyAllowRegexp)) := by
  rw [AWSMetadata_of_parsed L cfg p hp u hu]
  refine ⟨rfl, fun hflag => Proxy_of_disabled L cfg _ hflag, fun hflag r hc hm => ?_⟩
  exact Proxy_of_blocked L cfg _ hflag r hc [123, 125] (MarshalJSON_nil L) hm

/-- C6, evaluated: under the specification's allow pattern the metadata URL is
rejected by policy, and with the flag off the endpoint is unimplemented. -/
theorem AWSMetadata_delegates_witness :
    AWSMetadata Ref.lib Ref.exampleConfig { Path := "/hostname" }
        = Outcome.fail Code.InvalidArgument
            (blockedMessage "http://169.254.169.254/hostname" "^https://allowed\\.example")
      ∧ AWSMetadata Ref.lib Ref.disabledConfig { Path := "/hostname" }
        = Outcome.fail Code.Unimplemented
            "Proxy endpoint disabled. Enabled with --enable-proxy-endpoint" :=
  ⟨(AWSMetadata_delegates Ref.lib Ref.exampleConfig "/hostname" (by decide) _ rfl).2.2 rfl _ rfl
      (by decide),
    (AWSMetadata_delegates Ref.lib Ref.disabledConfig "/hostname" (by decide) _ rfl).2.1 rfl⟩

/-- C7: whatever the configuration and the libraries, AWSMetadata called with
an empty path fails with InvalidArgument `path must not be empty`, issues no
outbound call and sends nothing. -/
theorem AWSMetadata_empty_path (L : Lib) (cfg : Config) :
    (AWSMetadata L cfg { Path := "" }).result
        = .error ⟨Code.InvalidArgument, "path must not be empty"⟩
      ∧ (AWSMetadata L cfg { Path := "" }).calls = []
      ∧ (AWSMetadata L cfg { Path := "" }).sent = [] := by
  simp [AWSMetadata, Outcome.fail]

end Infrabin
